import Mathlib

/-!
Verification of the ParticleVerse GPU particle pipeline.

The definitions below are shallow embeddings of the repository's shader and
frame-update code:

* `src/gpgpu/computeShaders.ts` — the velocity / position compute shaders
  (two versions appear in the repository: the first with a plain hand
  repulsion of gain 200 and position clamp 500, the second gesture-aware
  with open-gesture gain 60 and position clamp 150).
* `src/shaders/particleShaders.ts` — the particle vertex shader
  (`applyEffect`, `applyHandInteraction`, point-size computation).
* `src/components/three/ParticleSystem.tsx` — the per-frame effect
  transition state machine, hand-uniform smoothing, and GPGPU wiring.
* `src/components/three/Scene.tsx` — particle-count adjustment when a
  shape transition changes the particle count.

GLSL floats are modelled as real numbers; the simplex-noise samples that
perturb directions enter as explicit real parameters (`n1`, `n2`, `n3`),
standing for the three deterministic `snoise` evaluations of the source.
A GLSL `normalize` of the zero vector is undefined (NaN); it is modelled
by `Option`, with `none` for the NaN outcome.  The per-frame state
machines that run on the CPU side use exact rationals so that concrete
traces are decidable.
-/

namespace ParticleVerse

/-- A 3-component float vector (GLSL `vec3`), modelled over the reals. -/
structure Vec3 where
  x : ℝ
  y : ℝ
  z : ℝ

namespace Vec3

theorem ext_iff {a b : Vec3} : a = b ↔ a.x = b.x ∧ a.y = b.y ∧ a.z = b.z := by
  cases a; cases b; simp

def add (a b : Vec3) : Vec3 := ⟨a.x + b.x, a.y + b.y, a.z + b.z⟩

def sub (a b : Vec3) : Vec3 := ⟨a.x - b.x, a.y - b.y, a.z - b.z⟩

def neg (a : Vec3) : Vec3 := ⟨-a.x, -a.y, -a.z⟩

def smul (c : ℝ) (a : Vec3) : Vec3 := ⟨c * a.x, c * a.y, c * a.z⟩

instance : Add Vec3 := ⟨Vec3.add⟩

instance : Sub Vec3 := ⟨Vec3.sub⟩

instance : Neg Vec3 := ⟨Vec3.neg⟩

instance : Zero Vec3 := ⟨⟨0, 0, 0⟩⟩

theorem add_def (a b : Vec3) : a + b = ⟨a.x + b.x, a.y + b.y, a.z + b.z⟩ := rfl

theorem sub_def (a b : Vec3) : a - b = ⟨a.x - b.x, a.y - b.y, a.z - b.z⟩ := rfl

theorem zero_def : (0 : Vec3) = ⟨0, 0, 0⟩ := rfl

/-- Squared euclidean length (GLSL `dot(v, v)`). -/
def lenSq (v : Vec3) : ℝ := v.x ^ 2 + v.y ^ 2 + v.z ^ 2

/-- Euclidean length (GLSL `length(v)`). -/
noncomputable def len (v : Vec3) : ℝ := Real.sqrt v.lenSq

theorem lenSq_nonneg (v : Vec3) : 0 ≤ v.lenSq := by
  unfold lenSq; positivity

theorem len_nonneg (v : Vec3) : 0 ≤ v.len := Real.sqrt_nonneg _

theorem lenSq_smul (c : ℝ) (v : Vec3) : (smul c v).lenSq = c ^ 2 * v.lenSq := by
  unfold lenSq smul; ring

theorem len_smul (c : ℝ) (v : Vec3) : (smul c v).len = |c| * v.len := by
  unfold len
  rw [lenSq_smul, Real.sqrt_mul (sq_nonneg c), Real.sqrt_sq_eq_abs]

theorem lenSq_eq_zero_iff {v : Vec3} : v.lenSq = 0 ↔ v = 0 := by
  constructor
  · intro h
    have h' : v.x ^ 2 + v.y ^ 2 + v.z ^ 2 = 0 := h
    have hx : v.x = 0 := by nlinarith [sq_nonneg v.x, sq_nonneg v.y, sq_nonneg v.z]
    have hy : v.y = 0 := by nlinarith [sq_nonneg v.x, sq_nonneg v.y, sq_nonneg v.z]
    have hz : v.z = 0 := by nlinarith [sq_nonneg v.x, sq_nonneg v.y, sq_nonneg v.z]
    rw [ext_iff]; exact ⟨hx, hy, hz⟩
  · intro h; subst h; simp [lenSq, zero_def]

theorem len_eq_zero_iff {v : Vec3} : v.len = 0 ↔ v = 0 := by
  rw [len, Real.sqrt_eq_zero (lenSq_nonneg v), lenSq_eq_zero_iff]

theorem sq_len (v : Vec3) : v.len ^ 2 = v.lenSq := Real.sq_sqrt (lenSq_nonneg v)

/-- Evaluate the length when the squared length is a known perfect square. -/
theorem len_of_sq {v : Vec3} {r : ℝ} (hr : 0 ≤ r) (h : v.lenSq = r ^ 2) : v.len = r := by
  rw [len, h, Real.sqrt_sq hr]

end Vec3

/-! ## Position compute shader (`src/gpgpu/computeShaders.ts`)

`displacement += velocity * dt * gain;` followed by the runaway clamp.
The first shader version uses `gain = 60.0`, `maxDist = 500.0`; the second
uses `gain = 20.0`, `maxDist = 150.0`.  `dt = min(uDeltaTime, 0.05)`. -/

/-- The integration step of the position compute shader:
`displacement + velocity * min(uDeltaTime, 0.05) * gain`. -/
def integrateDisplacement (gain : ℝ) (displacement velocity : Vec3) (uDeltaTime : ℝ) : Vec3 :=
  displacement + Vec3.smul (min uDeltaTime 0.05 * gain) velocity

/-- The runaway clamp of the position compute shader: if `length(d) > maxDist`
the displacement is rescaled by `maxDist / length(d)`. -/
noncomputable def clampDisplacement (maxDist : ℝ) (d : Vec3) : Vec3 :=
  if maxDist < d.len then Vec3.smul (maxDist / d.len) d else d

/-- Full position pass of the first compute-shader version
(`gain 60`, `maxDist 500`). -/
noncomputable def positionPassV1 (displacement velocity : Vec3) (uDeltaTime : ℝ) : Vec3 :=
  clampDisplacement 500 (integrateDisplacement 60 displacement velocity uDeltaTime)

/-- Full position pass of the second compute-shader version
(`gain 20`, `maxDist 150`). -/
noncomputable def positionPassV2 (displacement velocity : Vec3) (uDeltaTime : ℝ) : Vec3 :=
  clampDisplacement 150 (integrateDisplacement 20 displacement velocity uDeltaTime)

theorem len_clampDisplacement_le {m : ℝ} (hm : 0 < m) (d : Vec3) :
    (clampDisplacement m d).len ≤ m := by
  unfold clampDisplacement
  split_ifs with h
  · rw [Vec3.len_smul]
    have hl : 0 < d.len := lt_trans hm h
    have : |m / d.len| = m / d.len := abs_of_pos (div_pos hm hl)
    rw [this, div_mul_cancel₀ _ (ne_of_gt hl)]
  · exact le_of_not_lt h

theorem len_clampDisplacement_eq {m : ℝ} (hm : 0 < m) {d : Vec3} (h : m < d.len) :
    (clampDisplacement m d).len = m := by
  unfold clampDisplacement
  rw [if_pos h, Vec3.len_smul]
  have hl : 0 < d.len := lt_trans hm h
  have : |m / d.len| = m / d.len := abs_of_pos (div_pos hm hl)
  rw [this, div_mul_cancel₀ _ (ne_of_gt hl)]

/-- C1: after the position (displacement) pass, the displacement magnitude is
at most the shader's fixed `maxDist` (500 in the first shader version, 150 in
the second) for every displacement, velocity and frame delta; and whenever the
integrated vector `displacement + velocity * dt * gain` exceeds the bound, it
is rescaled to magnitude exactly `maxDist`. -/
theorem displacement_clamped_to_maxDist :
    ∀ (d v : Vec3) (dt : ℝ),
      ((positionPassV1 d v dt).len ≤ 500 ∧
        (500 < (integrateDisplacement 60 d v dt).len → (positionPassV1 d v dt).len = 500)) ∧
      ((positionPassV2 d v dt).len ≤ 150 ∧
        (150 < (integrateDisplacement 20 d v dt).len → (positionPassV2 d v dt).len = 150)) := by
  intro d v dt
  refine ⟨⟨?_, fun h => ?_⟩, ⟨?_, fun h => ?_⟩⟩
  · exact len_clampDisplacement_le (by norm_num) _
  · exact len_clampDisplacement_eq (by norm_num) h
  · exact len_clampDisplacement_le (by norm_num) _
  · exact len_clampDisplacement_eq (by norm_num) h

theorem integrate_at_rest :
    integrateDisplacement 60 ⟨600, 0, 0⟩ 0 (1 / 100) = ⟨600, 0, 0⟩ ∧
      integrateDisplacement 20 ⟨600, 0, 0⟩ 0 (1 / 100) = ⟨600, 0, 0⟩ := by
  constructor <;>
    · unfold integrateDisplacement
      rw [Vec3.ext_iff]
      simp [Vec3.smul, Vec3.add_def, Vec3.zero_def]

theorem len_600 : Vec3.len ⟨600, 0, 0⟩ = 600 := by
  apply Vec3.len_of_sq (by norm_num)
  unfold Vec3.lenSq
  norm_num

/-- Witness for C1: a displacement of magnitude 600 with zero velocity is
rescaled to magnitude exactly 500 by the first shader's position pass and to
exactly 150 by the second shader's position pass. -/
theorem displacement_clamped_to_maxDist_witness :
    (positionPassV1 ⟨600, 0, 0⟩ 0 (1 / 100)).len = 500 ∧
      (positionPassV2 ⟨600, 0, 0⟩ 0 (1 / 100)).len = 150 := by
  have h1 := (displacement_clamped_to_maxDist ⟨600, 0, 0⟩ 0 (1 / 100)).1.2
  have h2 := (displacement_clamped_to_maxDist ⟨600, 0, 0⟩ 0 (1 / 100)).2.2
  rw [integrate_at_rest.1, len_600] at h1
  rw [integrate_at_rest.2, len_600] at h2
  exact ⟨h1 (by norm_num), h2 (by norm_num)⟩

/-! ## Rotate effect (`src/shaders/particleShaders.ts`, `applyEffect`, effect 9)

The shader rotates `originalPos` about the enabled axes by
`angle = uTime * uRotateSpeed * intensity` and then re-adds the turbulence
offset `pos - originalPos`. -/

/-- X-axis rotation step of the rotate branch (YZ plane). -/
def rotX (c s : ℝ) (v : Vec3) : Vec3 :=
  ⟨v.x, v.y * c - v.z * s, v.y * s + v.z * c⟩

/-- Y-axis rotation step of the rotate branch (XZ plane). -/
def rotY (c s : ℝ) (v : Vec3) : Vec3 :=
  ⟨v.x * c + v.z * s, v.y, -(v.x * s) + v.z * c⟩

/-- Z-axis rotation step of the rotate branch (XY plane). -/
def rotZ (c s : ℝ) (v : Vec3) : Vec3 :=
  ⟨v.x * c - v.y * s, v.x * s + v.y * c, v.z⟩

/-- The three conditional axis rotations of the rotate branch, applied in the
shader's order X, then Y, then Z, each with the same angle. -/
def rotSeq (axX axY axZ : Bool) (c s : ℝ) (v : Vec3) : Vec3 :=
  let r1 := if axX then rotX c s v else v
  let r2 := if axY then rotY c s r1 else r1
  if axZ then rotZ c s r2 else r2

/-- Effect 9 (rotate) of `applyEffect`: rotate `originalPos` by
`uTime * uRotateSpeed * intensity` about the enabled axes, then re-add the
turbulence offset `pos - originalPos`. -/
noncomputable def rotateBranch (axX axY axZ : Bool) (uTime uRotateSpeed intensity : ℝ)
    (pos originalPos : Vec3) : Vec3 :=
  let angle := uTime * uRotateSpeed * intensity
  let rotated := rotSeq axX axY axZ (Real.cos angle) (Real.sin angle) originalPos
  rotated + (pos - originalPos)

/-- Distance between two points (length of the difference vector). -/
noncomputable def dist (a b : Vec3) : ℝ := (a - b).len

theorem rotX_sub (c s : ℝ) (a b : Vec3) :
    rotX c s (a - b) = rotX c s a - rotX c s b := by
  rw [Vec3.ext_iff]
  refine ⟨?_, ?_, ?_⟩ <;> simp [rotX, Vec3.sub_def] <;> ring

theorem rotY_sub (c s : ℝ) (a b : Vec3) :
    rotY c s (a - b) = rotY c s a - rotY c s b := by
  rw [Vec3.ext_iff]
  refine ⟨?_, ?_, ?_⟩ <;> simp [rotY, Vec3.sub_def] <;> ring

theorem rotZ_sub (c s : ℝ) (a b : Vec3) :
    rotZ c s (a - b) = rotZ c s a - rotZ c s b := by
  rw [Vec3.ext_iff]
  refine ⟨?_, ?_, ?_⟩ <;> simp [rotZ, Vec3.sub_def] <;> ring

theorem rotSeq_sub (axX axY axZ : Bool) (c s : ℝ) (a b : Vec3) :
    rotSeq axX axY axZ c s (a - b) =
      rotSeq axX axY axZ c s a - rotSeq axX axY axZ c s b := by
  cases axX <;> cases axY <;> cases axZ <;>
    simp [rotSeq, rotX_sub, rotY_sub, rotZ_sub]

theorem lenSq_rotX {c s : ℝ} (hcs : c ^ 2 + s ^ 2 = 1) (v : Vec3) :
    (rotX c s v).lenSq = v.lenSq := by
  unfold rotX Vec3.lenSq
  linear_combination (v.y ^ 2 + v.z ^ 2) * hcs

theorem lenSq_rotY {c s : ℝ} (hcs : c ^ 2 + s ^ 2 = 1) (v : Vec3) :
    (rotY c s v).lenSq = v.lenSq := by
  unfold rotY Vec3.lenSq
  linear_combination (v.x ^ 2 + v.z ^ 2) * hcs

theorem lenSq_rotZ {c s : ℝ} (hcs : c ^ 2 + s ^ 2 = 1) (v : Vec3) :
    (rotZ c s v).lenSq = v.lenSq := by
  unfold rotZ Vec3.lenSq
  linear_combination (v.x ^ 2 + v.y ^ 2) * hcs

theorem lenSq_rotSeq (axX axY axZ : Bool) {c s : ℝ} (hcs : c ^ 2 + s ^ 2 = 1) (v : Vec3) :
    (rotSeq axX axY axZ c s v).lenSq = v.lenSq := by
  cases axX <;> cases axY <;> cases axZ <;>
    simp [rotSeq, lenSq_rotX hcs, lenSq_rotY hcs, lenSq_rotZ hcs]

theorem sub_self_vec (a : Vec3) : a - a = 0 := by
  rw [Vec3.ext_iff]; simp [Vec3.sub_def, Vec3.zero_def]

theorem add_zero_vec (a : Vec3) : a + 0 = a := by
  rw [Vec3.ext_iff]; simp [Vec3.add_def, Vec3.zero_def]

theorem rotateBranch_no_turbulence (axX axY axZ : Bool) (t sp i : ℝ) (a : Vec3) :
    rotateBranch axX axY axZ t sp i a a =
      rotSeq axX axY axZ (Real.cos (t * sp * i)) (Real.sin (t * sp * i)) a := by
  unfold rotateBranch
  rw [sub_self_vec, add_zero_vec]

/-- C2: the rotate effect is a rigid rotation.  For every axis combination,
time, rotation speed and intensity, and for particles with zero turbulence
offset (`pos = originalPos`), the distance between the effect-transformed
positions of any two particles equals the distance between their original
positions.  Concretely, for the four particles (0,0,0), (10,0,0), (0,10,0),
(10,10,0) with axisY only, speed 1, intensity 1 and `uTime = π/2`, the
positions are rotated 90 degrees about the Y axis and the distance between
particle 0 and particle 1 remains 10. -/
theorem rotate_effect_is_rigid :
    (∀ (axX axY axZ : Bool) (t sp i : ℝ) (a b : Vec3),
      dist (rotateBranch axX axY axZ t sp i a a) (rotateBranch axX axY axZ t sp i b b) =
        dist a b) ∧
    (rotateBranch false true false (Real.pi / 2) 1 1 ⟨0, 0, 0⟩ ⟨0, 0, 0⟩ = ⟨0, 0, 0⟩ ∧
      rotateBranch false true false (Real.pi / 2) 1 1 ⟨10, 0, 0⟩ ⟨10, 0, 0⟩ = ⟨0, 0, -10⟩ ∧
      rotateBranch false true false (Real.pi / 2) 1 1 ⟨0, 10, 0⟩ ⟨0, 10, 0⟩ = ⟨0, 10, 0⟩ ∧
      rotateBranch false true false (Real.pi / 2) 1 1 ⟨10, 10, 0⟩ ⟨10, 10, 0⟩ = ⟨0, 10, -10⟩ ∧
      dist (rotateBranch false true false (Real.pi / 2) 1 1 ⟨0, 0, 0⟩ ⟨0, 0, 0⟩)
        (rotateBranch false true false (Real.pi / 2) 1 1 ⟨10, 0, 0⟩ ⟨10, 0, 0⟩) = 10) := by
  have hrigid : ∀ (axX axY axZ : Bool) (t sp i : ℝ) (a b : Vec3),
      dist (rotateBranch axX axY axZ t sp i a a) (rotateBranch axX axY axZ t sp i b b) =
        dist a b := by
    intro axX axY axZ t sp i a b
    rw [rotateBranch_no_turbulence, rotateBranch_no_turbulence]
    unfold dist Vec3.len
    rw [← rotSeq_sub, lenSq_rotSeq axX axY axZ (Real.cos_sq_add_sin_sq _) (a - b)]
  have hval : ∀ p : Vec3,
      rotateBranch false true false (Real.pi / 2) 1 1 p p =
        ⟨p.z, p.y, -p.x⟩ := by
    intro p
    rw [rotateBranch_no_turbulence]
    rw [Vec3.ext_iff]
    simp [rotSeq, rotY, Real.cos_pi_div_two, Real.sin_pi_div_two, mul_one]
  refine ⟨hrigid, ?_, ?_, ?_, ?_, ?_⟩
  · rw [hval, Vec3.ext_iff]; norm_num
  · rw [hval, Vec3.ext_iff]; norm_num
  · rw [hval, Vec3.ext_iff]; norm_num
  · rw [hval, Vec3.ext_iff]; norm_num
  · rw [hval, hval]
    unfold dist
    apply Vec3.len_of_sq (by norm_num : (0:ℝ) ≤ 10)
    simp [Vec3.sub_def, Vec3.lenSq]

/-! ## Effect transition state machine (`src/components/three/ParticleSystem.tsx`)

The per-frame effect transition: an effect-change `useEffect` that may start
a transition only from the `idle` stage, and a `useFrame` body that advances
`effectTransitionRef` by `delta * transitionSpeed * 2` and walks the stages
`fadeOut -> showNone -> fadeIn -> idle`. -/

/-- The closed set of particle effects (`ParticleEffect` in the store). -/
inductive ParticleEffect where
  | none | wave | spiral | explode | implode | noise
  | vortex | pulse | flow | rotate | float
  deriving DecidableEq

/-- The `effectToIndex` record of `ParticleSystem.tsx`. -/
def effectToIndex : ParticleEffect → ℕ
  | .none => 0
  | .wave => 1
  | .spiral => 2
  | .explode => 3
  | .implode => 4
  | .noise => 5
  | .vortex => 6
  | .pulse => 7
  | .flow => 8
  | .rotate => 9
  | .float => 10

/-- The stages of `effectTransitionStageRef`. -/
inductive EffStage where
  | idle | fadeOut | showNone | fadeIn
  deriving DecidableEq

/-- The state of the effect-transition machine: the stage ref, the progress
ref (`effectTransitionRef`), the previous/target effect refs, and the
`uEffect` / `uEffectIntensity` uniforms written each frame. -/
structure EffState where
  stage : EffStage
  progress : ℚ
  prevEffect : ParticleEffect
  targetEffect : ParticleEffect
  uEffect : ℕ
  uIntensity : ℚ
  deriving DecidableEq

/-- The effect-change `useEffect`: a change request starts a transition only
if the machine is idle and the requested effect differs from the previous
effect. -/
def requestEffect (currentEffect : ParticleEffect) (s : EffState) : EffState :=
  if currentEffect ≠ s.prevEffect ∧ s.stage = EffStage.idle then
    { s with targetEffect := currentEffect, stage := EffStage.fadeOut, progress := 0 }
  else s

/-- One `useFrame` pass of the effect transition, with current requested
effect `c`, configured intensity `i`, frame delta `δ` and transition speed
`σ`.  The progress ref advances by `min(progress + δ*σ*2, 1)` and the stage
thresholds are `1` (fadeOut), `0.3` (showNone) and `1` (fadeIn). -/
def frameStep (c : ParticleEffect) (i δ σ : ℚ) (s : EffState) : EffState :=
  match s.stage with
  | EffStage.idle => { s with uEffect := effectToIndex c, uIntensity := i }
  | EffStage.fadeOut =>
      let p := min (s.progress + δ * σ * 2) 1
      if 1 ≤ p then
        { stage := EffStage.showNone, progress := 0, prevEffect := ParticleEffect.none,
          targetEffect := s.targetEffect, uEffect := effectToIndex ParticleEffect.none,
          uIntensity := 0 }
      else
        { s with
          progress := p, uEffect := effectToIndex s.prevEffect,
          uIntensity := i * (1 - p) }
  | EffStage.showNone =>
      let p := min (s.progress + δ * σ * 2) 1
      if 3 / 10 ≤ p then
        { s with
          stage := EffStage.fadeIn, progress := 0,
          uEffect := effectToIndex ParticleEffect.none, uIntensity := 0 }
      else
        { s with
          progress := p, uEffect := effectToIndex ParticleEffect.none,
          uIntensity := 0 }
  | EffStage.fadeIn =>
      let p := min (s.progress + δ * σ * 2) 1
      if 1 ≤ p then
        { stage := EffStage.idle, progress := p, prevEffect := s.targetEffect,
          targetEffect := s.targetEffect, uEffect := effectToIndex s.targetEffect,
          uIntensity := i * p }
      else
        { s with
          progress := p, uEffect := effectToIndex s.targetEffect,
          uIntensity := i * p }

/-- Allowed one-step stage moves: a stage maps to itself or to its immediate
successor in `fadeOut -> showNone -> fadeIn -> idle`, and `idle` is absorbing
under frame steps. -/
def stageAdj : EffStage → EffStage → Bool
  | EffStage.idle, EffStage.idle => true
  | EffStage.fadeOut, EffStage.fadeOut => true
  | EffStage.fadeOut, EffStage.showNone => true
  | EffStage.showNone, EffStage.showNone => true
  | EffStage.showNone, EffStage.fadeIn => true
  | EffStage.fadeIn, EffStage.fadeIn => true
  | EffStage.fadeIn, EffStage.idle => true
  | _, _ => false

theorem frameStep_idle (c : ParticleEffect) (i δ σ : ℚ) (s : EffState)
    (hs : s.stage = EffStage.idle) :
    frameStep c i δ σ s = { s with uEffect := effectToIndex c, uIntensity := i } := by
  obtain ⟨st, p, pe, te, ue, ui⟩ := s
  dsimp at hs
  subst hs
  rfl

theorem frameStep_fadeOut_done (c : ParticleEffect) (i δ σ : ℚ) (s : EffState)
    (hs : s.stage = EffStage.fadeOut) (h : 1 ≤ s.progress + δ * σ * 2) :
    frameStep c i δ σ s =
      ⟨EffStage.showNone, 0, ParticleEffect.none, s.targetEffect, 0, 0⟩ := by
  obtain ⟨st, p, pe, te, ue, ui⟩ := s
  dsimp at hs h ⊢
  subst hs
  simp only [frameStep]
  rw [min_eq_right h, if_pos le_rfl]
  rfl

theorem frameStep_fadeOut_run (c : ParticleEffect) (i δ σ : ℚ) (s : EffState)
    (hs : s.stage = EffStage.fadeOut) (h : s.progress + δ * σ * 2 < 1) :
    frameStep c i δ σ s =
      { s with
        progress := s.progress + δ * σ * 2,
        uEffect := effectToIndex s.prevEffect,
        uIntensity := i * (1 - (s.progress + δ * σ * 2)) } := by
  obtain ⟨st, p, pe, te, ue, ui⟩ := s
  dsimp at hs h ⊢
  subst hs
  simp only [frameStep]
  rw [min_eq_left h.le, if_neg (not_le.mpr h)]

theorem frameStep_showNone_done (c : ParticleEffect) (i δ σ : ℚ) (s : EffState)
    (hs : s.stage = EffStage.showNone) (h : 3 / 10 ≤ s.progress + δ * σ * 2) :
    frameStep c i δ σ s =
      { s with
        stage := EffStage.fadeIn, progress := 0, uEffect := 0, uIntensity := 0 } := by
  obtain ⟨st, p, pe, te, ue, ui⟩ := s
  dsimp at hs h ⊢
  subst hs
  simp only [frameStep]
  rw [if_pos (le_min h (by norm_num))]
  rfl

theorem frameStep_showNone_run (c : ParticleEffect) (i δ σ : ℚ) (s : EffState)
    (hs : s.stage = EffStage.showNone) (h : s.progress + δ * σ * 2 < 3 / 10) :
    frameStep c i δ σ s =
      { s with
        progress := s.progress + δ * σ * 2, uEffect := 0, uIntensity := 0 } := by
  obtain ⟨st, p, pe, te, ue, ui⟩ := s
  dsimp at hs h ⊢
  subst hs
  simp only [frameStep]
  have h1 : p + δ * σ * 2 < 1 := lt_trans h (by norm_num)
  rw [min_eq_left h1.le, if_neg (not_le.mpr h)]
  rfl

theorem frameStep_fadeIn_done (c : ParticleEffect) (i δ σ : ℚ) (s : EffState)
    (hs : s.stage = EffStage.fadeIn) (h : 1 ≤ s.progress + δ * σ * 2) :
    frameStep c i δ σ s =
      ⟨EffStage.idle, 1, s.targetEffect, s.targetEffect,
        effectToIndex s.targetEffect, i⟩ := by
  obtain ⟨st, p, pe, te, ue, ui⟩ := s
  dsimp at hs h ⊢
  subst hs
  simp only [frameStep]
  rw [min_eq_right h, if_pos le_rfl, mul_one]

theorem frameStep_fadeIn_run (c : ParticleEffect) (i δ σ : ℚ) (s : EffState)
    (hs : s.stage = EffStage.fadeIn) (h : s.progress + δ * σ * 2 < 1) :
    frameStep c i δ σ s =
      { s with
        progress := s.progress + δ * σ * 2,
        uEffect := effectToIndex s.targetEffect,
        uIntensity := i * (s.progress + δ * σ * 2) } := by
  obtain ⟨st, p, pe, te, ue, ui⟩ := s
  dsimp at hs h ⊢
  subst hs
  simp only [frameStep]
  rw [min_eq_left h.le, if_neg (not_le.mpr h)]

theorem stageAdj_frameStep (c : ParticleEffect) (i δ σ : ℚ) (s : EffState) :
    stageAdj s.stage ((frameStep c i δ σ s).stage) = true := by
  obtain ⟨st, p, pe, te, ue, ui⟩ := s
  cases st <;> simp only [frameStep] <;> first
    | rfl
    | (split_ifs <;> rfl)

theorem requestEffect_nonidle (e : ParticleEffect) (s : EffState)
    (hs : s.stage ≠ EffStage.idle) : requestEffect e s = s := by
  unfold requestEffect
  rw [if_neg]
  intro hc
  exact hs hc.2

theorem requestEffect_idle_change (e : ParticleEffect) (s : EffState)
    (hs : s.stage = EffStage.idle) (he : e ≠ s.prevEffect) :
    requestEffect e s =
      { s with targetEffect := e, stage := EffStage.fadeOut, progress := 0 } := by
  unfold requestEffect
  rw [if_pos ⟨he, hs⟩]

/-- Generic escape argument: while predicate `P` holds, each step adds `d` to
the progress and preserves the designated exit state; once the accumulated
progress passes the threshold `θ`, one step lands exactly on the exit state. -/
theorem progress_escape (f : EffState → EffState) (d θ : ℚ)
    (P : EffState → Prop) (exitSt : EffState → EffState)
    (hlt : ∀ s, P s → s.progress + d < θ →
      P (f s) ∧ (f s).progress = s.progress + d ∧ exitSt (f s) = exitSt s)
    (hge : ∀ s, P s → θ ≤ s.progress + d → f s = exitSt s) :
    ∀ (n : ℕ) (s : EffState), P s → θ ≤ s.progress + (n + 1 : ℚ) * d →
      ∃ k : ℕ, f^[k] s = exitSt s := by
  intro n
  induction n with
  | zero =>
    intro s hP h
    refine ⟨1, ?_⟩
    rw [Function.iterate_one]
    exact hge s hP (by push_cast at h; linarith)
  | succ m ih =>
    intro s hP h
    by_cases hc : θ ≤ s.progress + d
    · exact ⟨1, by rw [Function.iterate_one]; exact hge s hP hc⟩
    · push_neg at hc
      obtain ⟨hP', hprog, hexit⟩ := hlt s hP hc
      have h' : θ ≤ (f s).progress + (m + 1 : ℚ) * d := by
        rw [hprog]
        push_cast at h ⊢
        linarith
      obtain ⟨k, hk⟩ := ih (f s) hP' h'
      exact ⟨k + 1, by rw [Function.iterate_succ_apply, hk, hexit]⟩

theorem exists_acc_ge (p θ d : ℚ) (hd : 0 < d) :
    ∃ n : ℕ, θ ≤ p + (n + 1 : ℚ) * d := by
  obtain ⟨n, hn⟩ := exists_nat_ge ((θ - p) / d)
  refine ⟨n, ?_⟩
  have : (θ - p) / d * d ≤ (n : ℚ) * d := by
    exact mul_le_mul_of_nonneg_right hn hd.le
  rw [div_mul_cancel₀ _ (ne_of_gt hd)] at this
  nlinarith

theorem fadeOut_reaches (c : ParticleEffect) (i δ σ : ℚ) (hd : 0 < δ * σ * 2)
    (s : EffState) (hs : s.stage = EffStage.fadeOut) :
    ∃ k : ℕ, (frameStep c i δ σ)^[k] s =
      ⟨EffStage.showNone, 0, ParticleEffect.none, s.targetEffect, 0, 0⟩ := by
  obtain ⟨n, hn⟩ := exists_acc_ge s.progress 1 (δ * σ * 2) hd
  have := progress_escape (frameStep c i δ σ) (δ * σ * 2) 1
    (fun t => t.stage = EffStage.fadeOut)
    (fun t => ⟨EffStage.showNone, 0, ParticleEffect.none, t.targetEffect, 0, 0⟩)
    (fun t ht hlt => by
      rw [frameStep_fadeOut_run c i δ σ t ht hlt]
      exact ⟨ht, rfl, rfl⟩)
    (fun t ht hge => frameStep_fadeOut_done c i δ σ t ht hge)
    n s hs hn
  exact this

theorem showNone_reaches (c : ParticleEffect) (i δ σ : ℚ) (hd : 0 < δ * σ * 2)
    (s : EffState) (hs : s.stage = EffStage.showNone) :
    ∃ k : ℕ, (frameStep c i δ σ)^[k] s =
      { s with
        stage := EffStage.fadeIn, progress := 0, uEffect := 0, uIntensity := 0 } := by
  obtain ⟨n, hn⟩ := exists_acc_ge s.progress (3 / 10) (δ * σ * 2) hd
  have := progress_escape (frameStep c i δ σ) (δ * σ * 2) (3 / 10)
    (fun t => t.stage = EffStage.showNone)
    (fun t =>
      { t with
        stage := EffStage.fadeIn, progress := 0, uEffect := 0, uIntensity := 0 })
    (fun t ht hlt => by
      rw [frameStep_showNone_run c i δ σ t ht hlt]
      exact ⟨ht, rfl, rfl⟩)
    (fun t ht hge => frameStep_showNone_done c i δ σ t ht hge)
    n s hs hn
  exact this

theorem fadeIn_reaches (c : ParticleEffect) (i δ σ : ℚ) (hd : 0 < δ * σ * 2)
    (s : EffState) (hs : s.stage = EffStage.fadeIn) :
    ∃ k : ℕ, (frameStep c i δ σ)^[k] s =
      ⟨EffStage.idle, 1, s.targetEffect, s.targetEffect,
        effectToIndex s.targetEffect, i⟩ := by
  obtain ⟨n, hn⟩ := exists_acc_ge s.progress 1 (δ * σ * 2) hd
  have := progress_escape (frameStep c i δ σ) (δ * σ * 2) 1
    (fun t => t.stage = EffStage.fadeIn)
    (fun t => ⟨EffStage.idle, 1, t.targetEffect, t.targetEffect,
      effectToIndex t.targetEffect, i⟩)
    (fun t ht hlt => by
      rw [frameStep_fadeIn_run c i δ σ t ht hlt]
      exact ⟨ht, rfl, rfl⟩)
    (fun t ht hge => frameStep_fadeIn_done c i δ σ t ht hge)
    n s hs hn
  exact this

theorem reaches_idle (c : ParticleEffect) (i δ σ : ℚ) (hδ : 0 < δ) (hσ : 0 < σ)
    (s : EffState) :
    ∃ n : ℕ, ((frameStep c i δ σ)^[n] s).stage = EffStage.idle := by
  have hd : 0 < δ * σ * 2 := by positivity
  have hFadeIn : ∀ t : EffState, t.stage = EffStage.fadeIn →
      ∃ n : ℕ, ((frameStep c i δ σ)^[n] t).stage = EffStage.idle := by
    intro t ht
    obtain ⟨k, hk⟩ := fadeIn_reaches c i δ σ hd t ht
    exact ⟨k, by rw [hk]⟩
  have hShowNone : ∀ t : EffState, t.stage = EffStage.showNone →
      ∃ n : ℕ, ((frameStep c i δ σ)^[n] t).stage = EffStage.idle := by
    intro t ht
    obtain ⟨k1, hk1⟩ := showNone_reaches c i δ σ hd t ht
    obtain ⟨k2, hk2⟩ := hFadeIn ((frameStep c i δ σ)^[k1] t) (by rw [hk1])
    exact ⟨k2 + k1, by rw [Function.iterate_add_apply]; exact hk2⟩
  cases hstage : s.stage with
  | idle => exact ⟨0, hstage⟩
  | fadeOut =>
    obtain ⟨k1, hk1⟩ := fadeOut_reaches c i δ σ hd s hstage
    obtain ⟨k2, hk2⟩ := hShowNone ((frameStep c i δ σ)^[k1] s) (by rw [hk1])
    exact ⟨k2 + k1, by rw [Function.iterate_add_apply]; exact hk2⟩
  | showNone => exact hShowNone s hstage
  | fadeIn => exact hFadeIn s hstage

/-- C3: the effect-transition machine moves through the stages only in the
order fadeOut, showNone, fadeIn, idle (each step stays in place or advances
to the immediate successor, and frame steps never leave idle on their own);
a change request arriving while a transition is in flight leaves the state
untouched; a change request in idle starts a fadeOut toward the requested
effect; and for positive frame delta and positive transition speed the
machine always reaches idle again, with the `uEffect` uniform then equal to
the index of the single requested effect. -/
theorem effect_transition_stage_order_and_termination :
    (∀ (c : ParticleEffect) (i δ σ : ℚ) (s : EffState),
      stageAdj s.stage ((frameStep c i δ σ s).stage) = true) ∧
    (∀ (e : ParticleEffect) (s : EffState),
      s.stage ≠ EffStage.idle → requestEffect e s = s) ∧
    (∀ (e : ParticleEffect) (s : EffState),
      s.stage = EffStage.idle → e ≠ s.prevEffect →
        (requestEffect e s).stage = EffStage.fadeOut ∧
        (requestEffect e s).targetEffect = e ∧ (requestEffect e s).progress = 0) ∧
    (∀ (c : ParticleEffect) (i δ σ : ℚ) (s : EffState), 0 < δ → 0 < σ →
      ∃ n : ℕ, ((frameStep c i δ σ)^[n] s).stage = EffStage.idle ∧
        ((frameStep c i δ σ)^[n] s).uEffect = effectToIndex c) := by
  refine ⟨stageAdj_frameStep, requestEffect_nonidle, ?_, ?_⟩
  · intro e s hs he
    rw [requestEffect_idle_change e s hs he]
    exact ⟨rfl, rfl, rfl⟩
  · intro c i δ σ s hδ hσ
    obtain ⟨n, hn⟩ := reaches_idle c i δ σ hδ hσ s
    refine ⟨n + 1, ?_⟩
    rw [Function.iterate_succ_apply',
      frameStep_idle c i δ σ ((frameStep c i δ σ)^[n] s) hn]
    exact ⟨hn, rfl⟩

/-- Witness for C3: from a concrete mid-fadeOut state with delta 1 and
transition speed 1 the machine reaches idle showing the requested effect; a
mid-flight request is a no-op; an idle request starts a fadeOut. -/
theorem effect_transition_stage_order_and_termination_witness :
    (∃ n : ℕ,
      ((frameStep ParticleEffect.wave 1 1 1)^[n]
        ⟨EffStage.fadeOut, 0, ParticleEffect.none, ParticleEffect.wave, 0, 0⟩).stage =
          EffStage.idle ∧
      ((frameStep ParticleEffect.wave 1 1 1)^[n]
        ⟨EffStage.fadeOut, 0, ParticleEffect.none, ParticleEffect.wave, 0, 0⟩).uEffect =
          effectToIndex ParticleEffect.wave) ∧
    requestEffect ParticleEffect.spiral
      ⟨EffStage.fadeOut, 0, ParticleEffect.none, ParticleEffect.wave, 0, 0⟩ =
      ⟨EffStage.fadeOut, 0, ParticleEffect.none, ParticleEffect.wave, 0, 0⟩ ∧
    (requestEffect ParticleEffect.wave
      ⟨EffStage.idle, 0, ParticleEffect.none, ParticleEffect.none, 0, 0⟩).stage =
      EffStage.fadeOut := by
  refine ⟨?_, ?_, ?_⟩
  · exact effect_transition_stage_order_and_termination.2.2.2
      ParticleEffect.wave 1 1 1
      ⟨EffStage.fadeOut, 0, ParticleEffect.none, ParticleEffect.wave, 0, 0⟩
      (by norm_num) (by norm_num)
  · exact effect_transition_stage_order_and_termination.2.1
      ParticleEffect.spiral
      ⟨EffStage.fadeOut, 0, ParticleEffect.none, ParticleEffect.wave, 0, 0⟩
      (by decide)
  · exact (effect_transition_stage_order_and_termination.2.2.1
      ParticleEffect.wave
      ⟨EffStage.idle, 0, ParticleEffect.none, ParticleEffect.none, 0, 0⟩
      rfl (by decide)).1

/-! ## Deferred effect requests (claim C4)

A concrete trace with frame delta 1 and transition speed 1 (so each stage
finishes in one frame): a transition to `wave` is started from idle, a second
request for `spiral` arrives mid-flight, and the machine is stepped to
completion and one frame beyond. -/

def c4Start : EffState :=
  ⟨EffStage.idle, 0, ParticleEffect.none, ParticleEffect.none, 0, 0⟩

def c4AfterRequest : EffState := requestEffect ParticleEffect.wave c4Start

def c4Frame1 : EffState := frameStep ParticleEffect.wave (1 / 2) 1 1 c4AfterRequest

def c4MidRequest : EffState := requestEffect ParticleEffect.spiral c4Frame1

def c4Frame2 : EffState := frameStep ParticleEffect.spiral (1 / 2) 1 1 c4MidRequest

def c4Frame3 : EffState := frameStep ParticleEffect.spiral (1 / 2) 1 1 c4Frame2

def c4Frame4 : EffState := frameStep ParticleEffect.spiral (1 / 2) 1 1 c4Frame3

theorem c4AfterRequest_eq :
    c4AfterRequest =
      ⟨EffStage.fadeOut, 0, ParticleEffect.none, ParticleEffect.wave, 0, 0⟩ := by
  rw [c4AfterRequest, c4Start,
    requestEffect_idle_change ParticleEffect.wave _ rfl (by decide)]

theorem c4Frame1_eq :
    c4Frame1 =
      ⟨EffStage.showNone, 0, ParticleEffect.none, ParticleEffect.wave, 0, 0⟩ := by
  rw [c4Frame1, c4AfterRequest_eq]
  exact frameStep_fadeOut_done _ _ _ _ _ rfl (by norm_num)

theorem c4MidRequest_eq : c4MidRequest = c4Frame1 := by
  rw [c4MidRequest]
  exact requestEffect_nonidle _ _ (by rw [c4Frame1_eq]; decide)

theorem c4Frame2_eq :
    c4Frame2 =
      ⟨EffStage.fadeIn, 0, ParticleEffect.none, ParticleEffect.wave, 0, 0⟩ := by
  rw [c4Frame2, c4MidRequest_eq, c4Frame1_eq]
  exact frameStep_showNone_done _ _ _ _ _ rfl (by norm_num)

theorem c4Frame3_eq :
    c4Frame3 =
      ⟨EffStage.idle, 1, ParticleEffect.wave, ParticleEffect.wave,
        effectToIndex ParticleEffect.wave, 1 / 2⟩ := by
  rw [c4Frame3, c4Frame2_eq]
  exact frameStep_fadeIn_done _ _ _ _ _ rfl (by norm_num)

theorem c4Frame4_eq :
    c4Frame4 =
      ⟨EffStage.idle, 1, ParticleEffect.wave, ParticleEffect.wave,
        effectToIndex ParticleEffect.spiral, 1 / 2⟩ := by
  rw [c4Frame4, c4Frame3_eq]
  exact frameStep_idle _ _ _ _ _ rfl

/-- Counterexample to C4: a request arriving mid-transition is not deferred
and executed.  In the concrete trace the mid-flight `spiral` request leaves
the state untouched, the in-flight transition completes to `wave`, and after
the machine returns to idle the next frame stays idle — no new
fadeOut/showNone/fadeIn transition toward `spiral` ever starts, and the
machine's previous-effect ref remains `wave`, not the last requested
`spiral` (the uniform merely snaps to `spiral` with no staged transition). -/
theorem mid_flight_request_not_deferred_counterexample :
    c4MidRequest = c4Frame1 ∧
    c4Frame3.stage = EffStage.idle ∧
    c4Frame3.prevEffect = ParticleEffect.wave ∧
    c4Frame4.stage = EffStage.idle ∧
    c4Frame4.prevEffect = ParticleEffect.wave ∧
    c4Frame4.uEffect = effectToIndex ParticleEffect.spiral ∧
    ParticleEffect.wave ≠ ParticleEffect.spiral := by
  refine ⟨c4MidRequest_eq, ?_, ?_, ?_, ?_, ?_, by decide⟩
  · rw [c4Frame3_eq]
  · rw [c4Frame3_eq]
  · rw [c4Frame4_eq]
  · rw [c4Frame4_eq]
  · rw [c4Frame4_eq]

/-- C4 amended: an effect-change request arriving while the machine is not
idle is ignored (the state is unchanged, so the request is dropped rather
than stored); the in-flight fadeIn completes to the machine's original
target effect; and once idle, frame steps keep the machine idle with the
`uEffect` uniform snapping directly to the currently requested effect — no
new staged transition runs for the dropped request. -/
theorem mid_flight_request_dropped :
    (∀ (e : ParticleEffect) (s : EffState),
      s.stage ≠ EffStage.idle → requestEffect e s = s) ∧
    (∀ (c : ParticleEffect) (i δ σ : ℚ) (s : EffState),
      s.stage = EffStage.fadeIn → 1 ≤ s.progress + δ * σ * 2 →
        frameStep c i δ σ s =
          ⟨EffStage.idle, 1, s.targetEffect, s.targetEffect,
            effectToIndex s.targetEffect, i⟩) ∧
    (∀ (c : ParticleEffect) (i δ σ : ℚ) (s : EffState),
      s.stage = EffStage.idle →
        frameStep c i δ σ s =
          { s with uEffect := effectToIndex c, uIntensity := i }) := by
  exact ⟨requestEffect_nonidle, frameStep_fadeIn_done, frameStep_idle⟩

/-- Witness for C4 amended: concrete instances of the three components. -/
theorem mid_flight_request_dropped_witness :
    requestEffect ParticleEffect.spiral c4Frame1 = c4Frame1 ∧
    frameStep ParticleEffect.spiral (1 / 2) 1 1 c4Frame2 =
      ⟨EffStage.idle, 1, c4Frame2.targetEffect, c4Frame2.targetEffect,
        effectToIndex c4Frame2.targetEffect, 1 / 2⟩ ∧
    frameStep ParticleEffect.spiral (1 / 2) 1 1 c4Frame3 =
      { c4Frame3 with
        uEffect := effectToIndex ParticleEffect.spiral, uIntensity := 1 / 2 } := by
  refine ⟨?_, ?_, ?_⟩
  · exact mid_flight_request_dropped.1 ParticleEffect.spiral c4Frame1
      (by rw [c4Frame1_eq]; decide)
  · exact mid_flight_request_dropped.2.1 ParticleEffect.spiral (1 / 2) 1 1 c4Frame2
      (by rw [c4Frame2_eq]) (by rw [c4Frame2_eq]; norm_num)
  · exact mid_flight_request_dropped.2.2 ParticleEffect.spiral (1 / 2) 1 1 c4Frame3
      (by rw [c4Frame3_eq])

/-! ## Point size (vertex shader, `src/shaders/particleShaders.ts`)

`gl_PointSize = uSize * (300 / -mvPosition.z)`, clamped to [1, 50], then
multiplied by the lighting-glow factor `1 + glow * 0.5` and the audio factor
`1 + bass * 0.5 + treble * 0.3`. -/

/-- GLSL `clamp(x, lo, hi)`. -/
def clampQ (x lo hi : ℚ) : ℚ := min (max x lo) hi

/-- Perspective distance scale of the vertex stage: `300.0 / -mvPosition.z`. -/
def distanceScale (mvz : ℚ) : ℚ := 300 / (-mvz)

/-- Final point size of the vertex stage: the base size times the perspective
scale, clamped to [1, 50], then scaled by the glow and audio multipliers. -/
def pointSize (uSize mvz glow bass treble : ℚ) : ℚ :=
  clampQ (uSize * distanceScale mvz) 1 50 * (1 + glow * (1 / 2)) *
    (1 + bass * (1 / 2) + treble * (3 / 10))

/-- C10: the [1,50] clamp is applied before the glow and audio multipliers,
so with lighting glow in [0,1] and audio bass/treble in [0,1] the final point
size lies in [1, 135] (135 = 50 * 1.5 * 1.8); the bound 135 is attained, so
the documented clamp of 50 bounds only the pre-glow base size and the final
size can exceed it by a factor of 2.7. -/
theorem point_size_bounds :
    (∀ uSize mvz glow bass treble : ℚ,
      0 ≤ glow → glow ≤ 1 → 0 ≤ bass → bass ≤ 1 → 0 ≤ treble → treble ≤ 1 →
        1 ≤ pointSize uSize mvz glow bass treble ∧
          pointSize uSize mvz glow bass treble ≤ 135) ∧
    pointSize 10 (-60) 1 1 1 = 135 := by
  constructor
  · intro uSize mvz glow bass treble hg0 hg1 hb0 hb1 ht0 ht1
    unfold pointSize
    set cbase := clampQ (uSize * distanceScale mvz) 1 50 with hcbase
    have hc1 : (1 : ℚ) ≤ cbase := by
      rw [hcbase]; unfold clampQ
      exact le_min (le_max_right _ _) (by norm_num)
    have hc2 : cbase ≤ 50 := by
      rw [hcbase]; unfold clampQ
      exact min_le_right _ _
    have hm1a : (1 : ℚ) ≤ 1 + glow * (1 / 2) := by nlinarith
    have hm1b : 1 + glow * (1 / 2) ≤ 3 / 2 := by nlinarith
    have hm2a : (1 : ℚ) ≤ 1 + bass * (1 / 2) + treble * (3 / 10) := by nlinarith
    have hm2b : 1 + bass * (1 / 2) + treble * (3 / 10) ≤ 9 / 5 := by nlinarith
    constructor
    · have l1 : (1 : ℚ) * 1 ≤ cbase * (1 + glow * (1 / 2)) :=
        mul_le_mul hc1 hm1a (by norm_num) (by linarith)
      have l2 : (1 : ℚ) * 1 * 1 ≤ cbase * (1 + glow * (1 / 2)) *
          (1 + bass * (1 / 2) + treble * (3 / 10)) :=
        mul_le_mul (by linarith) hm2a (by norm_num) (by nlinarith)
      linarith
    · have h1 : cbase * (1 + glow * (1 / 2)) ≤ 50 * (3 / 2) :=
        mul_le_mul hc2 hm1b (by linarith) (by norm_num)
      have h2 : cbase * (1 + glow * (1 / 2)) * (1 + bass * (1 / 2) + treble * (3 / 10)) ≤
          50 * (3 / 2) * (9 / 5) :=
        mul_le_mul h1 hm2b (by linarith) (by norm_num)
      linarith
  · norm_num [pointSize, clampQ, distanceScale]

/-- Witness for C10: the bounds applied at the size-maximizing input. -/
theorem point_size_bounds_witness :
    1 ≤ pointSize 10 (-60) 1 1 1 ∧ pointSize 10 (-60) 1 1 1 ≤ 135 :=
  point_size_bounds.1 10 (-60) 1 1 1 (by norm_num) (by norm_num) (by norm_num)
    (by norm_num) (by norm_num) (by norm_num)

/-! ## Hand-uniform update (`ParticleSystem.tsx`, useFrame + updateUniforms)

Each frame the smoothed hand ref lerps toward the raw hand position (or the
zero sentinel when tracking is disabled or the hand absent) with factor
`min(delta * gestureTransitionSpeed * 5, 1)`; the GPGPU velocity uniforms
copy the smoothed ref, while `updateUniforms` (called at the end of the
frame) overwrites the material's hand uniform with the raw position or the
zero sentinel. -/

/-- A 3-component vector over the rationals, for the CPU-side per-frame
state (`THREE.Vector3` values handled on the CPU). -/
structure Vec3Q where
  x : ℚ
  y : ℚ
  z : ℚ
  deriving DecidableEq

/-- Componentwise scalar multiple on rational vectors. -/
def smulQ (c : ℚ) (v : Vec3Q) : Vec3Q := ⟨c * v.x, c * v.y, c * v.z⟩

/-- `THREE.Vector3.lerp(target, alpha)`: each component moves toward the
target by the fraction `alpha`. -/
def lerpQ (v target : Vec3Q) (alpha : ℚ) : Vec3Q :=
  ⟨v.x + (target.x - v.x) * alpha,
    v.y + (target.y - v.y) * alpha,
    v.z + (target.z - v.z) * alpha⟩

/-- Per-frame smoothed hand update of `useFrame`: the smoothed ref lerps
toward the raw hand when tracking is enabled and the hand present, and
toward the zero sentinel otherwise, with factor
`min(delta * gestureTransitionSpeed * 5, 1)`. -/
def smoothHandStep (enabled : Bool) (raw : Option Vec3Q) (smoothPrev : Vec3Q)
    (delta gts : ℚ) : Vec3Q :=
  let f := min (delta * gts * 5) 1
  match raw, enabled with
  | some p, true => lerpQ smoothPrev p f
  | _, _ => lerpQ smoothPrev ⟨0, 0, 0⟩ f

/-- The hand position the vertex-shader interaction path consumes after the
frame: `updateUniforms` overwrites the uniform with the raw hand position
when enabled and present, and with the zero sentinel otherwise. -/
def vertexHandUniform (enabled : Bool) (raw : Option Vec3Q) : Vec3Q :=
  match raw, enabled with
  | some p, true => p
  | _, _ => ⟨0, 0, 0⟩

/-- The hand position the GPGPU velocity pass consumes: the smoothed ref as
updated this frame (`velUniforms.uLeftHand.value.copy(smoothLeftHandRef)`). -/
def gpgpuHandUniform (enabled : Bool) (raw : Option Vec3Q) (smoothPrev : Vec3Q)
    (delta gts : ℚ) : Vec3Q :=
  smoothHandStep enabled raw smoothPrev delta gts

/-- Counterexample to C7: disabling hand tracking does not synchronously zero
the hand position consumed by the GPGPU velocity pass.  With tracking
disabled, a previous smoothed position (100,0,0), frame delta 1/60 and
gesture transition speed 1/2, the vertex-path uniform is zero on the next
frame but the GPGPU pass consumes the gradually decaying position
(575/6, 0, 0) ≠ (0,0,0). -/
theorem hand_disable_not_synchronous_counterexample :
    vertexHandUniform false (some ⟨100, 0, 0⟩) = ⟨0, 0, 0⟩ ∧
    gpgpuHandUniform false (some ⟨100, 0, 0⟩) ⟨100, 0, 0⟩ (1 / 60) (1 / 2) =
      ⟨575 / 6, 0, 0⟩ ∧
    (⟨575 / 6, 0, 0⟩ : Vec3Q) ≠ (⟨0, 0, 0⟩ : Vec3Q) := by
  refine ⟨rfl, ?_, ?_⟩
  · unfold gpgpuHandUniform smoothHandStep lerpQ
    simp only [Vec3Q.mk.injEq]
    norm_num [min_def]
  · simp only [ne_eq, Vec3Q.mk.injEq, not_and]
    intro h
    norm_num at h

/-- C7 amended: disabling hand tracking zeroes the vertex-shader hand uniform
immediately (on the same frame), but the GPGPU velocity pass consumes the
smoothed hand ref, which merely decays exponentially toward the sentinel:
each frame it is scaled by `1 - min(delta * gestureTransitionSpeed * 5, 1)`,
so it stays nonzero on the next frame whenever the lerp factor is below 1. -/
theorem hand_disable_vertex_immediate_gpgpu_decaying :
    (∀ raw : Option Vec3Q, vertexHandUniform false raw = ⟨0, 0, 0⟩) ∧
    (∀ (raw : Option Vec3Q) (s : Vec3Q) (delta gts : ℚ),
      gpgpuHandUniform false raw s delta gts =
        smulQ (1 - min (delta * gts * 5) 1) s) := by
  constructor
  · intro raw
    cases raw <;> rfl
  · intro raw s delta gts
    cases raw <;>
      · unfold gpgpuHandUniform smoothHandStep lerpQ smulQ
        simp only [Vec3Q.mk.injEq]
        refine ⟨by ring, by ring, by ring⟩

/-! ## Particle-count mismatch on shape transitions (`Scene.tsx`)

When a shape transition starts and the new dataset's count differs from the
current one, an adjusted current array of the new length is built: index
`i < currentCount` copies the current particle at `min(i, currentCount-1)`;
indices beyond `currentCount` are synthesized near the origin from
`(Math.random() - 0.5) * 10` draws. -/

/-- The count-mismatch adjustment loop of `generateParticles`.  `rand k` is
the value of the k-th `Math.random()` draw, three consecutive draws per
synthesized particle. -/
def adjustPositions (current result : List Vec3Q) (rand : ℕ → ℚ) : List Vec3Q :=
  (List.range result.length).map fun i =>
    if i < current.length then
      current.getD (min i (current.length - 1)) ⟨0, 0, 0⟩
    else
      ⟨(rand (3 * i) - 1 / 2) * 10,
        (rand (3 * i + 1) - 1 / 2) * 10,
        (rand (3 * i + 2) - 1 / 2) * 10⟩

/-- The transition setup: the adjustment runs only when the counts differ,
and the adjusted array replaces the current data while `result` becomes the
transition target. -/
def beginShapeTransition (current result : List Vec3Q) (rand : ℕ → ℚ) :
    List Vec3Q × List Vec3Q :=
  if current.length ≠ result.length then (adjustPositions current result rand, result)
  else (current, result)

theorem adjustPositions_length (current result : List Vec3Q) (rand : ℕ → ℚ) :
    (adjustPositions current result rand).length = result.length := by
  unfold adjustPositions
  rw [List.length_map, List.length_range]

theorem adjustPositions_getD (current result : List Vec3Q) (rand : ℕ → ℚ)
    (i : ℕ) (hi : i < result.length) :
    (adjustPositions current result rand).getD i ⟨0, 0, 0⟩ =
      if i < current.length then
        current.getD (min i (current.length - 1)) ⟨0, 0, 0⟩
      else
        ⟨(rand (3 * i) - 1 / 2) * 10,
          (rand (3 * i + 1) - 1 / 2) * 10,
          (rand (3 * i + 2) - 1 / 2) * 10⟩ := by
  unfold adjustPositions
  rw [List.getD_eq_getElem?_getD, List.getElem?_map, List.getElem?_range hi]
  rfl

/-- Counterexample to C8: when the particle count shrinks, the extra current
particles are dropped instantly, not transitioned out through near-origin
positions.  Shrinking from two particles at (100,0,0) and (200,0,0) to one
particle produces the singleton current array [(100,0,0)]: the second
particle simply disappears, and no near-origin stand-in exists for it. -/
theorem shrink_drops_extra_particles_counterexample :
    (beginShapeTransition [⟨100, 0, 0⟩, ⟨200, 0, 0⟩] [⟨7, 7, 7⟩]
      (fun _ => 1 / 2)).1 = [⟨100, 0, 0⟩] ∧
    (beginShapeTransition [⟨100, 0, 0⟩, ⟨200, 0, 0⟩] [⟨7, 7, 7⟩]
      (fun _ => 1 / 2)).1.length = 1 := by
  have h : (beginShapeTransition [⟨100, 0, 0⟩, ⟨200, 0, 0⟩] [⟨7, 7, 7⟩]
      (fun _ => 1 / 2)).1 = [⟨100, 0, 0⟩] := by
    unfold beginShapeTransition adjustPositions
    norm_num [List.range_succ]
  exact ⟨h, by rw [h]; rfl⟩

/-- C8 amended: the adjusted current array always has the new dataset's
length; indices below the old count copy the old particles unchanged; when
the count grows, the extra current-side particles are synthesized near the
origin (every coordinate within [-5, 5] given `Math.random()` draws in
[0,1)); but when the count shrinks, the adjusted array is simply the
truncation of the old current array — the extra old particles are dropped
instantly rather than transitioned out through near-origin positions. -/
theorem count_mismatch_adjustment :
    (∀ (current result : List Vec3Q) (rand : ℕ → ℚ),
      (adjustPositions current result rand).length = result.length) ∧
    (∀ (current result : List Vec3Q) (rand : ℕ → ℚ) (i : ℕ),
      i < result.length → i < current.length →
        (adjustPositions current result rand).getD i ⟨0, 0, 0⟩ =
          current.getD i ⟨0, 0, 0⟩) ∧
    (∀ (current result : List Vec3Q) (rand : ℕ → ℚ) (i : ℕ),
      (∀ k, 0 ≤ rand k ∧ rand k < 1) →
      current.length ≤ i → i < result.length →
        |((adjustPositions current result rand).getD i ⟨0, 0, 0⟩).x| ≤ 5 ∧
        |((adjustPositions current result rand).getD i ⟨0, 0, 0⟩).y| ≤ 5 ∧
        |((adjustPositions current result rand).getD i ⟨0, 0, 0⟩).z| ≤ 5) ∧
    (∀ (current result : List Vec3Q) (rand : ℕ → ℚ),
      result.length ≤ current.length →
        adjustPositions current result rand = current.take result.length) := by
  refine ⟨adjustPositions_length, ?_, ?_, ?_⟩
  · intro current result rand i hir hic
    rw [adjustPositions_getD current result rand i hir, if_pos hic,
      min_eq_left (Nat.le_sub_one_of_lt hic)]
  · intro current result rand i hrand hic hir
    rw [adjustPositions_getD current result rand i hir,
      if_neg (not_lt.mpr hic)]
    have h1 := hrand (3 * i)
    have h2 := hrand (3 * i + 1)
    have h3 := hrand (3 * i + 2)
    refine ⟨abs_le.mpr ⟨by linarith [h1.1], by linarith [h1.2]⟩,
      abs_le.mpr ⟨by linarith [h2.1], by linarith [h2.2]⟩,
      abs_le.mpr ⟨by linarith [h3.1], by linarith [h3.2]⟩⟩
  · intro current result rand hlen
    apply List.ext_getElem?
    intro i
    by_cases hi : i < result.length
    · have hic : i < current.length := lt_of_lt_of_le hi hlen
      unfold adjustPositions
      rw [List.getElem?_map, List.getElem?_range hi, List.getElem?_take, if_pos hi]
      simp only [Option.map_some']
      rw [if_pos hic, min_eq_left (Nat.le_sub_one_of_lt hic),
        List.getElem?_eq_getElem hic, List.getD_eq_getElem _ _ hic]
    · push_neg at hi
      have hadj : (adjustPositions current result rand).length ≤ i := by
        rw [adjustPositions_length]; exact hi
      have htake : (current.take result.length).length ≤ i := by
        rw [List.length_take]
        exact le_trans (min_le_left _ _) hi
      rw [List.getElem?_eq_none hadj, List.getElem?_eq_none htake]

/-- Witness for C8 amended: growing two particles to three with uniform
`Math.random()` draws of 1/2 keeps the old particles and synthesizes the
third inside the [-5,5] cube; shrinking two particles to one truncates. -/
theorem count_mismatch_adjustment_witness :
    (adjustPositions [⟨1, 2, 3⟩, ⟨4, 5, 6⟩] [⟨9, 9, 9⟩, ⟨8, 8, 8⟩, ⟨7, 7, 7⟩]
        (fun _ => 1 / 2)).getD 0 ⟨0, 0, 0⟩ =
      ([⟨1, 2, 3⟩, ⟨4, 5, 6⟩] : List Vec3Q).getD 0 ⟨0, 0, 0⟩ ∧
    |((adjustPositions [⟨1, 2, 3⟩, ⟨4, 5, 6⟩] [⟨9, 9, 9⟩, ⟨8, 8, 8⟩, ⟨7, 7, 7⟩]
        (fun _ => 1 / 2)).getD 2 ⟨0, 0, 0⟩).x| ≤ 5 ∧
    adjustPositions [⟨1, 2, 3⟩, ⟨4, 5, 6⟩] [⟨7, 7, 7⟩] (fun _ => 1 / 2) =
      ([⟨1, 2, 3⟩, ⟨4, 5, 6⟩] : List Vec3Q).take 1 := by
  refine ⟨?_, ?_, ?_⟩
  · exact count_mismatch_adjustment.2.1 _ _ _ 0 (by norm_num) (by norm_num)
  · exact (count_mismatch_adjustment.2.2.1 _ _ _ 2
      (fun k => ⟨by norm_num, by norm_num⟩) (by norm_num) (by norm_num)).1
  · exact count_mismatch_adjustment.2.2.2 _ _ _ (by norm_num)

/-! ## Normalization guards (velocity shader + vertex shader effects)

GLSL `normalize` of a zero-length vector is undefined (NaN); it is modelled
as an `Option`, with `none` for the undefined outcome.  The noise samples
that perturb the push directions enter as explicit parameters. -/

/-- GLSL `normalize(v)`: `none` models the undefined (NaN) result on the
zero vector. -/
noncomputable def glslNormalize (v : Vec3) : Option Vec3 :=
  if v.lenSq = 0 then none else some (Vec3.smul (1 / v.len) v)

theorem glslNormalize_of_ne {v : Vec3} (h : v.lenSq ≠ 0) :
    glslNormalize v = some (Vec3.smul (1 / v.len) v) := by
  unfold glslNormalize
  rw [if_neg h]

theorem lenSq_ne_zero_of_len_gt {v : Vec3} {c : ℝ} (hc : 0 ≤ c) (h : c < v.len) :
    v.lenSq ≠ 0 := by
  intro h0
  rw [Vec3.len, h0, Real.sqrt_zero] at h
  linarith

/-- The normalized vector is a unit vector (in squared length). -/
theorem lenSq_unit {v : Vec3} (h : v.lenSq ≠ 0) :
    (Vec3.smul (1 / v.len) v).lenSq = 1 := by
  rw [Vec3.lenSq_smul, div_pow, one_pow, Vec3.sq_len]
  exact one_div_mul_cancel h

theorem smul_zero_vec (c : ℝ) : Vec3.smul c 0 = 0 := by
  rw [Vec3.ext_iff]
  simp [Vec3.smul, Vec3.zero_def]

theorem len_single {a : ℝ} (ha : 0 ≤ a) : Vec3.len ⟨a, 0, 0⟩ = a := by
  apply Vec3.len_of_sq ha
  unfold Vec3.lenSq
  ring

theorem normalize_single {a : ℝ} (ha : 0 < a) :
    glslNormalize ⟨a, 0, 0⟩ = some ⟨1, 0, 0⟩ := by
  have hsq : Vec3.lenSq ⟨a, 0, 0⟩ ≠ 0 := by
    unfold Vec3.lenSq
    simp only
    intro h0
    nlinarith
  rw [glslNormalize_of_ne hsq]
  congr 1
  rw [Vec3.ext_iff, len_single ha.le]
  unfold Vec3.smul
  refine ⟨?_, by simp, by simp⟩
  simp only
  field_simp

/-- Effect 3 (explode) of `applyEffect`:
`result = pos + normalize(pos) * sin(t*2) * intensity * 30` with
`t = time * uSpeed`; the `normalize(pos)` has no zero-length guard. -/
noncomputable def explodeBranch (pos : Vec3) (time uSpeed intensity : ℝ) : Option Vec3 :=
  (glslNormalize pos).map fun dir =>
    pos + Vec3.smul (Real.sin (time * uSpeed * 2) * intensity * 30) dir

/-- Effect 4 (implode) of `applyEffect`:
`result = pos - normalize(pos) * sin(t*2) * intensity * 20 * (1 - dist*0.01)`
with `dist = length(pos)`; the `normalize(pos)` has no zero-length guard. -/
noncomputable def implodeBranch (pos : Vec3) (time uSpeed intensity : ℝ) : Option Vec3 :=
  (glslNormalize pos).map fun dir =>
    pos - Vec3.smul (Real.sin (time * uSpeed * 2) * intensity * 20 *
      (1 - pos.len * 0.01)) dir

/-- Effect 7 (pulse) of `applyEffect`:
`pulse = sin(t*3 + randomOffset*6.28)*0.5 + 0.5`;
`result = pos + normalize(pos) * pulse * intensity * 20`; the
`normalize(pos)` has no zero-length guard. -/
noncomputable def pulseBranch (pos : Vec3) (time uSpeed intensity randomOffset : ℝ) :
    Option Vec3 :=
  (glslNormalize pos).map fun dir =>
    pos + Vec3.smul ((Real.sin (time * uSpeed * 3 + randomOffset * 6.28) * 0.5 + 0.5) *
      intensity * 20) dir

/-- The audio bass radial impulse of the velocity shader: active only when
the bass scalar exceeds 0.01; the direction is the normalized displacement
when its length exceeds 0.01 and the fixed up vector (0,1,0) otherwise. -/
noncomputable def audioBassForce (displacement : Vec3) (uAudioBass : ℝ) : Option Vec3 :=
  if 0.01 < uAudioBass then
    (if 0.01 < displacement.len then glslNormalize displacement
      else some ⟨0, 1, 0⟩).map fun radialDir =>
      Vec3.smul (uAudioBass * 30) radialDir
  else some 0

/-- The left-hand repulsion of the first velocity-shader version: sentinel
check `length(uLeftHand) > 0.001`, active band `0.01 < dist < uHandRadius`,
cubic falloff `(1 - dist/uHandRadius)^3`, noise-perturbed renormalized push
direction, upward bias `0.1 * force`, and gain `uRepulsionForce * 200`.
The three `snoise` samples enter as `n1 n2 n3`; outside the guards the
contribution is zero. -/
noncomputable def leftHandForceV1 (worldPos uLeftHand : Vec3)
    (uHandRadius uRepulsionForce n1 n2 n3 : ℝ) : Option Vec3 :=
  if 0.001 < uLeftHand.len then
    let toParticle := worldPos - uLeftHand
    let d := toParticle.len
    if d < uHandRadius ∧ 0.01 < d then
      let force := (1 - d / uHandRadius) ^ 3
      (glslNormalize toParticle).bind fun pd0 =>
        (glslNormalize (pd0 + Vec3.smul 0.3 ⟨n1, n2, n3⟩)).map fun pd1 =>
          Vec3.smul (force * uRepulsionForce * 200) ⟨pd1.x, pd1.y + 0.1 * force, pd1.z⟩
    else some 0
  else some 0

/-- The second normalization of the hand push cannot hit the zero vector:
the first normalize returns a unit vector, and the noise offset has squared
length at most 0.27 when every sample lies in [-1, 1]. -/
theorem noised_dir_lenSq_ne_zero {p0 : Vec3} {n1 n2 n3 : ℝ}
    (hp0 : p0.lenSq = 1) (h1 : |n1| ≤ 1) (h2 : |n2| ≤ 1) (h3 : |n3| ≤ 1) :
    (p0 + Vec3.smul 0.3 ⟨n1, n2, n3⟩).lenSq ≠ 0 := by
  intro h0
  have hz := Vec3.lenSq_eq_zero_iff.mp h0
  obtain ⟨hx, hy, hz3⟩ := Vec3.ext_iff.mp hz
  simp only [Vec3.add_def, Vec3.smul, Vec3.zero_def] at hx hy hz3
  have hb1 : n1 ^ 2 ≤ 1 := by nlinarith [(abs_le.mp h1).1, (abs_le.mp h1).2]
  have hb2 : n2 ^ 2 ≤ 1 := by nlinarith [(abs_le.mp h2).1, (abs_le.mp h2).2]
  have hb3 : n3 ^ 2 ≤ 1 := by nlinarith [(abs_le.mp h3).1, (abs_le.mp h3).2]
  have hls : p0.lenSq = (0.3 * n1) ^ 2 + (0.3 * n2) ^ 2 + (0.3 * n3) ^ 2 := by
    unfold Vec3.lenSq
    have ex : p0.x = -(0.3 * n1) := by linarith
    have ey : p0.y = -(0.3 * n2) := by linarith
    have ez : p0.z = -(0.3 * n3) := by linarith
    rw [ex, ey, ez]
    ring
  rw [hp0] at hls
  nlinarith

/-- Counterexample to C5: the explode, implode and pulse effect branches
evaluate `normalize(pos)` with no zero-length guard, so a particle exactly
at the origin produces an undefined (NaN) direction in each of them. -/
theorem effect_normalize_unguarded_counterexample :
    explodeBranch ⟨0, 0, 0⟩ 1 1 (1 / 2) = none ∧
    implodeBranch ⟨0, 0, 0⟩ 1 1 (1 / 2) = none ∧
    pulseBranch ⟨0, 0, 0⟩ 1 1 (1 / 2) (1 / 4) = none := by
  have hz : Vec3.lenSq ⟨0, 0, 0⟩ = 0 := by
    unfold Vec3.lenSq
    norm_num
  refine ⟨?_, ?_, ?_⟩ <;>
    simp [explodeBranch, implodeBranch, pulseBranch, glslNormalize, hz]

/-- C5 amended: the audio radial-impulse direction and the velocity-shader
hand-force normalizations are guarded (the audio direction substitutes the
fixed up vector below the 0.01 cutoff, and the hand force normalizes only
vectors of length above 0.01, its post-noise renormalization being nonzero
for noise samples in [-1,1]), so neither ever yields an undefined result;
but the explode, implode and pulse effect branches call `normalize(pos)`
with no zero-length guard and are undefined for a particle at the origin. -/
theorem normalize_guards_audio_and_hand_only :
    (∀ (d : Vec3) (bass : ℝ), (audioBassForce d bass).isSome) ∧
    (∀ (worldPos handPos : Vec3) (radius rep n1 n2 n3 : ℝ),
      |n1| ≤ 1 → |n2| ≤ 1 → |n3| ≤ 1 →
        (leftHandForceV1 worldPos handPos radius rep n1 n2 n3).isSome) ∧
    (∀ time uSpeed intensity randomOffset : ℝ,
      explodeBranch ⟨0, 0, 0⟩ time uSpeed intensity = none ∧
      implodeBranch ⟨0, 0, 0⟩ time uSpeed intensity = none ∧
      pulseBranch ⟨0, 0, 0⟩ time uSpeed intensity randomOffset = none) := by
  have hz : Vec3.lenSq ⟨0, 0, 0⟩ = 0 := by
    unfold Vec3.lenSq
    norm_num
  refine ⟨?_, ?_, ?_⟩
  · intro d bass
    unfold audioBassForce
    split_ifs with hb hd
    · rw [glslNormalize_of_ne (lenSq_ne_zero_of_len_gt (by norm_num) hd)]
      rfl
    · rfl
    · rfl
  · intro wp hp radius rep n1 n2 n3 h1 h2 h3
    simp only [leftHandForceV1]
    split_ifs with hs hband
    · have htne : (wp - hp).lenSq ≠ 0 :=
        lenSq_ne_zero_of_len_gt (by norm_num) hband.2
      rw [glslNormalize_of_ne htne, Option.some_bind]
      rw [glslNormalize_of_ne (noised_dir_lenSq_ne_zero (lenSq_unit htne) h1 h2 h3)]
      rfl
    · rfl
    · rfl
  · intro time uSpeed intensity randomOffset
    refine ⟨?_, ?_, ?_⟩ <;>
      simp [explodeBranch, implodeBranch, pulseBranch, glslNormalize, hz]

/-- Witness for C5 amended: the guards evaluated at concrete inputs. -/
theorem normalize_guards_audio_and_hand_only_witness :
    (audioBassForce ⟨3, 0, 0⟩ (1 / 2)).isSome ∧
    (leftHandForceV1 ⟨11, 0, 0⟩ ⟨1, 0, 0⟩ 50 (1 / 2) 0 0 0).isSome ∧
    explodeBranch ⟨0, 0, 0⟩ 1 1 1 = none := by
  refine ⟨?_, ?_, ?_⟩
  · exact normalize_guards_audio_and_hand_only.1 ⟨3, 0, 0⟩ (1 / 2)
  · exact normalize_guards_audio_and_hand_only.2.1 ⟨11, 0, 0⟩ ⟨1, 0, 0⟩ 50 (1 / 2)
      0 0 0 (by norm_num) (by norm_num) (by norm_num)
  · exact (normalize_guards_audio_and_hand_only.2.2 1 1 1 0).1

/-! ## Gesture-aware hand force (`computeHandForce`, second velocity shader)

Gesture codes: 0 none, 1 open (repel, gain 60), 2 closed (attract, gain 50),
3 pinch (vortex, gain 45), 4 point (none), 5 peace (burst, gain 120). -/

/-- The up vector used by the pinch/vortex gesture. -/
def upVec : Vec3 := ⟨0, 1, 0⟩

/-- GLSL `cross(a, b)`. -/
def cross (a b : Vec3) : Vec3 :=
  ⟨a.y * b.z - a.z * b.y, a.z * b.x - a.x * b.z, a.x * b.y - a.y * b.x⟩

/-- `computeHandForce` of the gesture-aware velocity shader: sentinel check
`length(handPos) < 0.001`, active band `0.01 ≤ dist < uHandRadius`, cubic
falloff, and a force shaped by the discrete gesture code.  The `snoise`
samples enter as `n1 n2 n3`. -/
noncomputable def computeHandForce (uGesture : ℤ) (worldPos handPos : Vec3)
    (uHandRadius uRepulsionForce uAttractionForce n1 n2 n3 : ℝ) : Option Vec3 :=
  if handPos.len < 0.001 then some 0
  else
    let toParticle := worldPos - handPos
    let d := toParticle.len
    if uHandRadius ≤ d ∨ d < 0.01 then some 0
    else
      let falloff := (1 - d / uHandRadius) ^ 3
      if uGesture = 0 ∨ uGesture = 4 then some 0
      else if uGesture = 1 then
        (glslNormalize toParticle).bind fun p0 =>
          (glslNormalize (p0 + Vec3.smul 0.3 ⟨n1, n2, n3⟩)).map fun p1 =>
            Vec3.smul (falloff * uRepulsionForce * 60)
              ⟨p1.x, p1.y + 0.1 * falloff, p1.z⟩
      else if uGesture = 2 then
        (glslNormalize toParticle).bind fun p0 =>
          (glslNormalize (-p0 + Vec3.smul 0.15 ⟨n1, n2, n3⟩)).map fun p1 =>
            Vec3.smul (falloff * uAttractionForce * 50) p1
      else if uGesture = 3 then
        (glslNormalize (cross upVec toParticle)).bind fun tangent =>
          (glslNormalize toParticle).bind fun nto =>
            (glslNormalize (tangent + Vec3.smul (-0.3) nto +
                Vec3.smul 0.1 ⟨n1, n2, n3⟩)).map fun orbitDir =>
              Vec3.smul (falloff * uRepulsionForce * 45) orbitDir
      else if uGesture = 5 then
        (glslNormalize toParticle).bind fun b0 =>
          (glslNormalize (b0 + Vec3.smul 0.5 ⟨n1, n2, n3⟩)).map fun b1 =>
            Vec3.smul (falloff * uRepulsionForce * 120) b1
      else some 0

theorem len_zero_vec : Vec3.len ⟨0, 0, 0⟩ = 0 := len_single le_rfl

theorem leftHandForceV1_sentinel (wp : Vec3) (radius rep n1 n2 n3 : ℝ) :
    leftHandForceV1 wp ⟨0, 0, 0⟩ radius rep n1 n2 n3 = some 0 := by
  simp only [leftHandForceV1, len_zero_vec]
  rw [if_neg (by norm_num)]

theorem computeHandForce_sentinel (g : ℤ) (wp : Vec3)
    (radius rep att n1 n2 n3 : ℝ) :
    computeHandForce g wp ⟨0, 0, 0⟩ radius rep att n1 n2 n3 = some 0 := by
  simp only [computeHandForce, len_zero_vec]
  rw [if_pos (by norm_num)]

theorem sub_eval_11_1 : (⟨11, 0, 0⟩ : Vec3) - ⟨1, 0, 0⟩ = ⟨10, 0, 0⟩ := by
  rw [Vec3.sub_def, Vec3.ext_iff]
  norm_num

theorem add_noise_zero : (⟨1, 0, 0⟩ : Vec3) + Vec3.smul 0.3 ⟨0, 0, 0⟩ = ⟨1, 0, 0⟩ := by
  rw [Vec3.add_def, Vec3.ext_iff]
  unfold Vec3.smul
  norm_num

theorem leftHandForceV1_eval (rep : ℝ) :
    leftHandForceV1 ⟨11, 0, 0⟩ ⟨1, 0, 0⟩ 50 rep 0 0 0 =
      some (Vec3.smul (0.512 * rep * 200) ⟨1, 0.1 * 0.512, 0⟩) := by
  have h1 : Vec3.len ⟨1, 0, 0⟩ = 1 := len_single (by norm_num)
  have h10 : Vec3.len ⟨10, 0, 0⟩ = 10 := len_single (by norm_num)
  simp only [leftHandForceV1, sub_eval_11_1, h1, h10]
  rw [if_pos (by norm_num : (0.001 : ℝ) < 1),
    if_pos ⟨by norm_num, by norm_num⟩,
    normalize_single (by norm_num : (0 : ℝ) < 10), Option.some_bind,
    add_noise_zero, normalize_single (by norm_num : (0 : ℝ) < 1)]
  simp only [Option.map_some']
  congr 1
  rw [Vec3.ext_iff]
  unfold Vec3.smul
  refine ⟨by norm_num, by norm_num, by norm_num⟩

theorem computeHandForce_open_eval (rep att : ℝ) :
    computeHandForce 1 ⟨11, 0, 0⟩ ⟨1, 0, 0⟩ 50 rep att 0 0 0 =
      some (Vec3.smul (0.512 * rep * 60) ⟨1, 0.1 * 0.512, 0⟩) := by
  have h1 : Vec3.len ⟨1, 0, 0⟩ = 1 := len_single (by norm_num)
  have h10 : Vec3.len ⟨10, 0, 0⟩ = 10 := len_single (by norm_num)
  simp only [computeHandForce, sub_eval_11_1, h1, h10]
  rw [if_neg (by norm_num : ¬ (1 : ℝ) < 0.001),
    if_neg (by norm_num : ¬ ((50 : ℝ) ≤ 10 ∨ (10 : ℝ) < 0.01))]
  rw [if_neg (by norm_num : ¬ ((1 : ℤ) = 0 ∨ (1 : ℤ) = 4)), if_pos trivial,
    normalize_single (by norm_num : (0 : ℝ) < 10), Option.some_bind,
    add_noise_zero, normalize_single (by norm_num : (0 : ℝ) < 1)]
  simp only [Option.map_some']
  congr 1
  rw [Vec3.ext_iff]
  unfold Vec3.smul
  refine ⟨by norm_num, by norm_num, by norm_num⟩

/-- Counterexample to C6: the spec's scenario places the hand exactly at
(0,0,0), which both shader versions treat as the absent-hand sentinel, so
the accumulated hand force for the particle at world position (10,0,0) with
radius 50 is zero — not the claimed 0.512 * repulsionForce * pushGain,
which is nonzero for repulsionForce 1/2 under either gain. -/
theorem hand_at_origin_sentinel_counterexample :
    leftHandForceV1 ⟨10, 0, 0⟩ ⟨0, 0, 0⟩ 50 (1 / 2) 0 0 0 = some 0 ∧
    computeHandForce 1 ⟨10, 0, 0⟩ ⟨0, 0, 0⟩ 50 (1 / 2) (1 / 2) 0 0 0 = some 0 ∧
    (0.512 * (1 / 2) * 200 : ℝ) ≠ 0 ∧ (0.512 * (1 / 2) * 60 : ℝ) ≠ 0 := by
  refine ⟨leftHandForceV1_sentinel _ _ _ _ _ _,
    computeHandForce_sentinel _ _ _ _ _ _ _ _, by norm_num, by norm_num⟩

/-- C6 amended: a hand at (0,0,0) is the absent sentinel (zero force in both
shader versions).  For a sentinel-passing hand at (1,0,0) and a particle at
world position (11,0,0) — distance 10 inside radius 50 — the cubic falloff
is (1-10/50)^3 = 0.512, the pre-noise push direction is exactly (1,0,0),
and with zero noise samples the accumulated force is
(0.512 * repulsionForce * gain) * (1, 0.1*0.512, 0) with gain 200 in the
first shader version and 60 in the gesture-aware open branch; before the
upward bias the force magnitude is exactly 0.512 * repulsionForce * gain. -/
theorem hand_force_scenario_needs_sentinel_pass :
    (∀ (wp : Vec3) (radius rep n1 n2 n3 : ℝ),
      leftHandForceV1 wp ⟨0, 0, 0⟩ radius rep n1 n2 n3 = some 0) ∧
    (∀ (g : ℤ) (wp : Vec3) (radius rep att n1 n2 n3 : ℝ),
      computeHandForce g wp ⟨0, 0, 0⟩ radius rep att n1 n2 n3 = some 0) ∧
    ((1 - 10 / 50 : ℝ) ^ 3 = 0.512 ∧
      glslNormalize (⟨11, 0, 0⟩ - ⟨1, 0, 0⟩ : Vec3) = some ⟨1, 0, 0⟩) ∧
    (∀ rep att : ℝ,
      leftHandForceV1 ⟨11, 0, 0⟩ ⟨1, 0, 0⟩ 50 rep 0 0 0 =
        some (Vec3.smul (0.512 * rep * 200) ⟨1, 0.1 * 0.512, 0⟩) ∧
      computeHandForce 1 ⟨11, 0, 0⟩ ⟨1, 0, 0⟩ 50 rep att 0 0 0 =
        some (Vec3.smul (0.512 * rep * 60) ⟨1, 0.1 * 0.512, 0⟩)) ∧
    (∀ rep : ℝ, 0 ≤ rep →
      (Vec3.smul (0.512 * rep * 200) ⟨1, 0, 0⟩).len = 0.512 * rep * 200 ∧
      (Vec3.smul (0.512 * rep * 60) ⟨1, 0, 0⟩).len = 0.512 * rep * 60) := by
  refine ⟨leftHandForceV1_sentinel, computeHandForce_sentinel, ⟨by norm_num, ?_⟩,
    fun rep att => ⟨leftHandForceV1_eval rep, computeHandForce_open_eval rep att⟩,
    fun rep hrep => ⟨?_, ?_⟩⟩
  · rw [sub_eval_11_1]
    exact normalize_single (by norm_num)
  · rw [Vec3.len_smul, len_single (by norm_num : (0:ℝ) ≤ 1),
      abs_of_nonneg (by positivity)]
    ring
  · rw [Vec3.len_smul, len_single (by norm_num : (0:ℝ) ≤ 1),
      abs_of_nonneg (by positivity)]
    ring

/-- Witness for C6 amended: the force magnitude component applied at
repulsionForce 1/2, and the concrete force evaluation. -/
theorem hand_force_scenario_needs_sentinel_pass_witness :
    (Vec3.smul (0.512 * (1 / 2) * 200) ⟨1, 0, 0⟩).len = 0.512 * (1 / 2) * 200 ∧
    leftHandForceV1 ⟨11, 0, 0⟩ ⟨1, 0, 0⟩ 50 (1 / 2) 0 0 0 =
      some (Vec3.smul (0.512 * (1 / 2) * 200) ⟨1, 0.1 * 0.512, 0⟩) := by
  refine ⟨?_, ?_⟩
  · exact (hand_force_scenario_needs_sentinel_pass.2.2.2.2 (1 / 2) (by norm_num)).1
  · exact (hand_force_scenario_needs_sentinel_pass.2.2.2.1 (1 / 2) 0).1

/-! ## GPGPU failure fallback (claim C9)

`ParticleSystem.tsx` disables GPGPU when construction throws or
`gpuCompute.init()` returns an error; each frame the `uUseGPGPU` uniform is
true only when all GPGPU refs exist and the enabled flag is set; the vertex
shader then either samples the physics texture or runs
`applyHandInteraction` (per-vertex instantaneous hand pushes, gain 100). -/

/-- One hand's push of the vertex-shader `applyHandInteraction`: identical
shape to the velocity-shader hand force (same sentinel, band, cubic falloff,
noise scatter 0.3 and upward bias 0.1*force) but gain `uRepulsionForce * 100`
applied directly to position. -/
noncomputable def vertexHandPush (pos handPos : Vec3)
    (uHandRadius uRepulsionForce n1 n2 n3 : ℝ) : Option Vec3 :=
  if 0.001 < handPos.len then
    let toParticle := pos - handPos
    let d := toParticle.len
    if d < uHandRadius ∧ 0.01 < d then
      let force := (1 - d / uHandRadius) ^ 3
      (glslNormalize toParticle).bind fun pd0 =>
        (glslNormalize (pd0 + Vec3.smul 0.3 ⟨n1, n2, n3⟩)).map fun pd1 =>
          Vec3.smul (force * uRepulsionForce * 100) ⟨pd1.x, pd1.y + 0.1 * force, pd1.z⟩
    else some 0
  else some 0

/-- `applyHandInteraction`: both hands' pushes are computed from the same
input position and added to it. -/
noncomputable def applyHandInteraction (pos uLeftHand uRightHand : Vec3)
    (uHandRadius uRepulsionForce ln1 ln2 ln3 rn1 rn2 rn3 : ℝ) : Option Vec3 :=
  (vertexHandPush pos uLeftHand uHandRadius uRepulsionForce ln1 ln2 ln3).bind fun dl =>
    (vertexHandPush pos uRightHand uHandRadius uRepulsionForce rn1 rn2 rn3).map fun dr =>
      pos + dl + dr

/-- GPGPU initialization outcome: enabled only when construction did not
throw and `gpuCompute.init()` returned no error. -/
def gpgpuInitEnabled (threw : Bool) (initError : Bool) : Bool :=
  if threw then false else if initError then false else true

/-- The per-frame GPGPU guard of `useFrame`: the physics texture is used
only when all GPGPU refs exist and the enabled flag is set; otherwise the
`uUseGPGPU` uniform is set to false. -/
def frameUseGPGPU (hasCompute hasVelVar hasPosVar gpuEnabled : Bool) : Bool :=
  hasCompute && hasVelVar && hasPosVar && gpuEnabled

/-- The physics application of the vertex-shader main: add the sampled
displacement when `uUseGPGPU`, else run the per-vertex hand interaction. -/
noncomputable def vertexApplyPhysics (useGPGPU : Bool)
    (physicsSample pos uLeftHand uRightHand : Vec3)
    (uHandRadius uRepulsionForce ln1 ln2 ln3 rn1 rn2 rn3 : ℝ) : Option Vec3 :=
  if useGPGPU then some (pos + physicsSample)
  else applyHandInteraction pos uLeftHand uRightHand uHandRadius uRepulsionForce
    ln1 ln2 ln3 rn1 rn2 rn3

/-- C9: when GPGPU initialization fails (init error or thrown construction),
the enabled flag is false; the per-frame guard then sets `uUseGPGPU` to
false regardless of the refs; the vertex stage then ignores the physics
sample and applies the instantaneous `applyHandInteraction` fallback; and
that fallback's single-hand push is exactly half the first velocity shader's
hand force for all inputs — the same cubic falloff, noise scatter and upward
bias, differing only in the 100-versus-200 gain, applied directly to
position with no persistent velocity state. -/
theorem gpgpu_failure_falls_back :
    (∀ threw initError : Bool, threw = true ∨ initError = true →
      gpgpuInitEnabled threw initError = false) ∧
    (∀ hasCompute hasVelVar hasPosVar : Bool,
      frameUseGPGPU hasCompute hasVelVar hasPosVar false = false) ∧
    (∀ (physicsSample pos lh rh : Vec3) (radius rep ln1 ln2 ln3 rn1 rn2 rn3 : ℝ),
      vertexApplyPhysics false physicsSample pos lh rh radius rep
          ln1 ln2 ln3 rn1 rn2 rn3 =
        applyHandInteraction pos lh rh radius rep ln1 ln2 ln3 rn1 rn2 rn3) ∧
    (∀ (worldPos handPos : Vec3) (radius rep n1 n2 n3 : ℝ),
      leftHandForceV1 worldPos handPos radius rep n1 n2 n3 =
        Option.map (Vec3.smul 2) (vertexHandPush worldPos handPos radius rep n1 n2 n3)) := by
  refine ⟨?_, ?_, ?_, ?_⟩
  · intro threw initError h
    rcases h with h | h <;> subst h <;> simp [gpgpuInitEnabled]
  · intro hasCompute hasVelVar hasPosVar
    simp [frameUseGPGPU]
  · intro physicsSample pos lh rh radius rep ln1 ln2 ln3 rn1 rn2 rn3
    rfl
  · intro worldPos handPos radius rep n1 n2 n3
    simp only [leftHandForceV1, vertexHandPush]
    split_ifs with hs hband
    · cases hg0 : glslNormalize (worldPos - handPos) with
      | none => simp only [hg0, Option.none_bind, Option.map_none']
      | some p0 =>
        cases hg1 : glslNormalize (p0 + Vec3.smul 0.3 ⟨n1, n2, n3⟩) with
        | none => simp only [hg0, Option.some_bind, hg1, Option.map_none']
        | some p1 =>
          simp only [hg0, Option.some_bind, hg1, Option.map_some']
          congr 1
          rw [Vec3.ext_iff]
          unfold Vec3.smul
          refine ⟨by ring, by ring, by ring⟩
    · simp only [Option.map_some']
      rw [smul_zero_vec]
    · simp only [Option.map_some']
      rw [smul_zero_vec]

/-- Witness for C9: the components applied at concrete inputs. -/
theorem gpgpu_failure_falls_back_witness :
    gpgpuInitEnabled true false = false ∧
    frameUseGPGPU true true true false = false ∧
    vertexApplyPhysics false ⟨9, 9, 9⟩ ⟨1, 2, 3⟩ 0 0 100 (1 / 2) 0 0 0 0 0 0 =
      applyHandInteraction ⟨1, 2, 3⟩ 0 0 100 (1 / 2) 0 0 0 0 0 0 ∧
    leftHandForceV1 ⟨11, 0, 0⟩ ⟨1, 0, 0⟩ 50 (1 / 2) 0 0 0 =
      Option.map (Vec3.smul 2)
        (vertexHandPush ⟨11, 0, 0⟩ ⟨1, 0, 0⟩ 50 (1 / 2) 0 0 0) := by
  refine ⟨?_, ?_, ?_, ?_⟩
  · exact gpgpu_failure_falls_back.1 true false (Or.inl rfl)
  · exact gpgpu_failure_falls_back.2.1 true true true
  · exact gpgpu_failure_falls_back.2.2.1 ⟨9, 9, 9⟩ ⟨1, 2, 3⟩ 0 0 100 (1 / 2)
      0 0 0 0 0 0
  · exact gpgpu_failure_falls_back.2.2.2 ⟨11, 0, 0⟩ ⟨1, 0, 0⟩ 50 (1 / 2) 0 0 0

end ParticleVerse
